import Mathlib

/-!
Verification of `tap_shopify_partners/shopify_partners.py` (Shopify Partners
API client: date-windowed transaction extraction).

The Python source is shallowly embedded below: pure string manipulation is
modelled on `List Char`, JSON values as an inductive type, the extraction
generator as explicit run functions returning the list of yielded records,
an optional raised error, and the number of transport (HTTP) calls made.
External collaborators (the `httpx` transport, the `isoparse` date parser,
the `QUERIES` and `CLEANERS` registries) are parameters of the embedded
functions; the registries' contents, which live outside `src/`, are
modelled from the spec where a claim needs them.
-/

set_option autoImplicit false

namespace TapShopifyPartners

/-- A JSON value, as produced by `response.json()`. -/
inductive Json where
  | null : Json
  | bool (b : Bool) : Json
  | num (n : Int) : Json
  | str (s : String) : Json
  | arr (elems : List Json) : Json
  | obj (fields : List (String × Json)) : Json

/-- Python exceptions that the embedded code can raise. -/
inductive PyErr where
  | valueError (msg : String) : PyErr
  | attributeError (name : String) : PyErr
  | nameError (name : String) : PyErr
  | keyError (key : String) : PyErr
  | indexError : PyErr
  | typeError (msg : String) : PyErr
  | httpStatusError (status : Nat) : PyErr
  | jsonDecodeError : PyErr
  deriving DecidableEq, Repr

/-- The character list underlying a Lean string (Python strings are modelled
as `List Char`). -/
def strL (s : String) : List Char := s.data

/-- `isPrefixL pat s` : does `s` start with `pat`? (Boolean, executable.) -/
def isPrefixL : List Char → List Char → Bool
  | [], _ => true
  | _ :: _, [] => false
  | p :: ps, c :: cs => p == c && isPrefixL ps cs

/-- Leftmost occurrence of `pat` in `s`: returns the part strictly before the
occurrence and the part strictly after it, or `none` when `pat` does not
occur.  Models the scan performed by Python's `str.replace`. -/
def splitFirst (pat : List Char) : List Char → Option (List Char × List Char)
  | [] => none
  | c :: rest =>
    if isPrefixL pat (c :: rest) then
      some ([], (c :: rest).drop pat.length)
    else
      match splitFirst pat rest with
      | some (a, b) => some (c :: a, b)
      | none => none

/-- Fuel-indexed worker for `replaceAll`; the fuel only serves termination
and is irrelevant once it is at least the length of the scanned string. -/
def replaceAllF : Nat → List Char → List Char → List Char → List Char
  | 0, _, _, s => s
  | fuel + 1, pat, r, s =>
    match splitFirst pat s with
    | none => s
    | some (a, b) => a ++ r ++ replaceAllF fuel pat r b

/-- Python's `s.replace(pat, r)`: replace every non-overlapping occurrence of
`pat` in `s` by `r`, scanning left to right, never rescanning the
replacement text. -/
def replaceAll (pat r s : List Char) : List Char := replaceAllF s.length pat r s

/-- Boolean substring test (via the leftmost-occurrence scanner). -/
def containsSub (pat s : List Char) : Bool := (splitFirst pat s).isSome

/-- `hasPair c1 c2 s` : does `s` contain the two-character sequence
`c1` directly followed by `c2`? -/
def hasPair (c1 c2 : Char) : List Char → Bool
  | [] => false
  | [_] => false
  | a :: b :: t => (a == c1 && b == c2) || hasPair c1 c2 (b :: t)

/-! ## Module-level constants (`shopify_partners.py`, lines 17-26) -/

def API_SCHEME : String := "https://"

def API_BASE_URL : String := "partners.shopify.com/"

def API_ORG_ID : String := ":organization_id:/"

def API_VERSION : String := "api/2022-01/"

def API_PATH_CALL_TYPE : String := "graphql.json"

/-- The frozen module-level header template (a `MappingProxyType` in the
source, i.e. an immutable mapping). -/
def HEADERS : List (String × String) :=
  [("Content-Type", "application/graphql"),
   ("X-Shopify-Access-Token", ":token:")]

/-- The URL built in `shopify_partners_transactions` (lines 77-83):
`API_ORG_ID.replace(':organization_id:', organization_id)` spliced between
the scheme/base and version/path constants. -/
def buildUrl (organizationId : String) : List Char :=
  strL API_SCHEME ++ strL API_BASE_URL ++
    replaceAll (strL ":organization_id:") (strL organizationId) (strL API_ORG_ID) ++
    strL API_VERSION ++ strL API_PATH_CALL_TYPE

/-! ## Header composition (`_create_headers`, lines 115-122) -/

/-- Python dict assignment `m[k] = v`: update the value in place when the key
is present (keeping its position), append otherwise. -/
def dictSet (m : List (String × String)) (k v : String) : List (String × String) :=
  if m.any (fun kv => kv.1 == k) then
    m.map (fun kv => if kv.1 == k then (k, v) else kv)
  else
    m ++ [(k, v)]

/-- The mutable state of one `Shopify` client relevant to header handling:
the module-level template (frozen) and the `self.headers` attribute
(`none` until `_create_headers` has run). -/
structure ClientState where
  headersTemplate : List (String × String)
  selfHeaders : Option (List (String × String))
  deriving DecidableEq, Repr

/-- State of a freshly constructed client: module template is `HEADERS`,
`self.headers` not yet set. -/
def initialClientState : ClientState := ⟨HEADERS, none⟩

/-- Embedding of `_create_headers` (lines 115-122): copy the frozen template
(`dict(HEADERS)`), substitute the access token into the copy's
`X-Shopify-Access-Token` value via `str.replace`, and store the copy in
`self.headers`.  The template itself is never written to. -/
def createHeadersStep (accessToken : String) (st : ClientState) :
    Except PyErr ClientState :=
  let headers := st.headersTemplate
  match headers.lookup "X-Shopify-Access-Token" with
  | none => .error (.keyError "X-Shopify-Access-Token")
  | some tokenValue =>
    let newValue : String :=
      ⟨replaceAll (strL ":token:") (strL accessToken) (strL tokenValue)⟩
    .ok { st with
          selfHeaders := some (dictSet headers "X-Shopify-Access-Token" newValue) }

/-! ## Records, registries, JSON access -/

/-- Canonical output record.  The day marker and the payload are modelled
from the spec's NormalizedTransaction (the cleaner producing it lives in
the `cleaners` module, outside `src/`). -/
structure NormalizedTransaction where
  day : String
  fields : Json

/-- Type of a normalizer function: (day string, raw record) to
NormalizedTransaction. -/
abbrev Cleaner := String → Json → NormalizedTransaction

/-- Modelled from the spec: the module `tap_shopify_partners.cleaners` (the
`CLEANERS` registry) is not under `src/`.  Per the spec (Record Normalizer,
Data Model), the normalizer for the transactions stream is a pure function
from (day string, raw record) to the canonical output record, tagged with
the non-empty day marker of the window it came from. -/
def cleanShopifyPartnersTransactions (dateDay : String) (transaction : Json) :
    NormalizedTransaction :=
  ⟨dateDay, transaction⟩

/-- Modelled from the spec: the module `tap_shopify_partners.queries` (the
`QUERIES` registry) is not under `src/`.  Per the spec (Request Builder,
External Interfaces), its entry for the `transactions` stream is a GraphQL
query template containing the two placeholder tokens `:fromdate:` and
`:todate:` for the day-start and day-end timestamps. -/
def transactionsQueryTemplate : List Char :=
  strL "\x7b transactions(createdAtMin: \":fromdate:\", createdAtMax: \":todate:\", types: [SALE]) \x7b edges \x7b node \x7b id createdAt \x7d \x7d \x7d \x7d"

/-- What `CLEANERS.get('clean_shopify_partners_transactions', Unknown)` can
evaluate to: the registered function, or the `dict` default `\x7b\x7d`. -/
inductive CleanerSlot where
  | fn (f : Cleaner)
  | emptyDict

/-- Embedding of line 97:
`CLEANERS.get('clean_shopify_partners_transactions', dict())` — the lookup
silently falls back to an empty dict when the entry is absent. -/
def cleanerLookup (cleanersGet : String → Option Cleaner) : CleanerSlot :=
  match cleanersGet "clean_shopify_partners_transactions" with
  | some f => .fn f
  | none => .emptyDict

/-- Evaluating the generator expression
`(cleaner(date_day, transaction) for transaction in edges)` (lines 106-109):
one output per edge, in edge order; when `cleaner` is the empty-dict
default, the first element raises `TypeError` (a dict is not callable) and
an empty `edges` list produces no call and no error at all. -/
def runCleaner (cleaner : CleanerSlot) (dateDay : String) (edges : List Json) :
    Except PyErr (List NormalizedTransaction) :=
  match cleaner with
  | .fn f => .ok (edges.map (f dateDay))
  | .emptyDict =>
    match edges with
    | [] => .ok []
    | _ :: _ => .error (.typeError "dict is not callable")

/-- Python subscript `j[key]` on a parsed JSON value: field lookup on an
object (KeyError when absent), TypeError on a non-object. -/
def Json.getItem (j : Json) (key : String) : Except PyErr Json :=
  match j with
  | .obj fields =>
    match fields.lookup key with
    | some v => .ok v
    | none => .error (.keyError key)
  | _ => .error (.typeError "object is not subscriptable")

/-- An HTTP response as seen by the loop: its status code and the result of
`response.json()` (`Except.error` when the body is not parseable JSON). -/
structure Response where
  status : Nat
  jsonBody : Except Unit Json

/-! ## The extraction loop (`shopify_partners_transactions`, lines 86-109) -/

/-- The two placeholder substitutions of lines 87-90:
`query.replace(':fromdate:', date_day + "T00:00:00.000000Z")` followed by
`query.replace(':todate:', date_day + "T23:59:59.999999Z")`. -/
def substituteDates (query : List Char) (dateDay : String) : List Char :=
  let q1 := replaceAll (strL ":fromdate:")
    (strL dateDay ++ strL "T00:00:00.000000Z") query
  replaceAll (strL ":todate:") (strL dateDay ++ strL "T23:59:59.999999Z") q1

/-- One iteration of the day loop (lines 86-109), embedded in source order:
`QUERIES['transactions']` subscript (KeyError when absent), placeholder
substitution, the transport call, the cleaner lookup,
`response.raise_for_status()` (httpx raises on any 4xx/5xx status),
`response.json()`, the `['data']['transactions']['edges']` path, then the
per-edge cleaner application.  `transport` abstracts
`self.client.get(url, headers=..., data=query)` as a function of the
request body. -/
def processDay (queriesTransactions : Option (List Char))
    (cleanersGet : String → Option Cleaner)
    (transport : List Char → Response)
    (dateDay : String) : Except PyErr (List NormalizedTransaction) :=
  match queriesTransactions with
  | none => .error (.keyError "transactions")
  | some queryTemplate =>
    let query := substituteDates queryTemplate dateDay
    let response := transport query
    let cleaner := cleanerLookup cleanersGet
    if 400 ≤ response.status ∧ response.status < 600 then
      .error (.httpStatusError response.status)
    else
      match response.jsonBody with
      | .error _ => .error .jsonDecodeError
      | .ok responseData =>
        match responseData.getItem "data" with
        | .error e => .error e
        | .ok dataVal =>
          match dataVal.getItem "transactions" with
          | .error e => .error e
          | .ok transactionsVal =>
            match transactionsVal.getItem "edges" with
            | .error e => .error e
            | .ok edgesVal =>
              match edgesVal with
              | .arr edges => runCleaner cleaner dateDay edges
              | _ => .error (.typeError "object is not iterable")

/-- Number of transport calls one day iteration performs: zero when the
`QUERIES['transactions']` subscript raises before the request, one
otherwise (the request is issued before any later failure point, and it is
never retried). -/
def processDayCalls (queriesTransactions : Option (List Char)) : Nat :=
  match queriesTransactions with
  | none => 0
  | some _ => 1

/-- The whole `for date_day in ...` loop: runs the days in order,
concatenating the yielded records; the first raised error aborts the loop,
keeping everything already yielded.  Returns (records yielded, raised
error if any, number of transport calls made). -/
def extractionLoop (queriesTransactions : Option (List Char))
    (cleanersGet : String → Option Cleaner)
    (transport : List Char → Response) :
    List String → List NormalizedTransaction × Option PyErr × Nat
  | [] => ([], none, 0)
  | d :: ds =>
    match processDay queriesTransactions cleanersGet transport d with
    | .error e => ([], some e, processDayCalls queriesTransactions)
    | .ok recs =>
      let rest := extractionLoop queriesTransactions cleanersGet transport ds
      (recs ++ rest.1, rest.2.1, processDayCalls queriesTransactions + rest.2.2)

/-! ## The generator up to its first yield (lines 47-84) -/

/-- Outcome of driving the generator: records yielded, error raised (if
any), transport calls made. -/
structure RunOutcome where
  records : List NormalizedTransaction
  error : Option PyErr
  transportCalls : Nat

/-- Embedding of advancing `shopify_partners_transactions` from its start,
lines 58-84: `str(kwargs.get('start_date', ''))`, the emptiness check
raising `ValueError`, `isoparse(start_date_input)` (the external dateutil
parser, abstracted as the predicate `isoparseOk`, raising `ValueError` on
failure), then URL building and `self.create_headers()` — an attribute that
does not exist (the class only defines `_create_headers`), so every run
that gets past date parsing raises `AttributeError` before the day loop and
before any transport call. -/
def shopifyPartnersTransactionsRun (startDate : Option String)
    (isoparseOk : String → Bool) : RunOutcome :=
  let startDateInput : String := startDate.getD ""
  if startDateInput = "" then
    ⟨[], some (.valueError "The parameter start_date is required."), 0⟩
  else if isoparseOk startDateInput then
    ⟨[], some (.attributeError "create_headers"), 0⟩
  else
    ⟨[], some (.valueError "isoparse"), 0⟩

/-- A suspended generator returned by calling
`shopify_partners_transactions(**kwargs)`: Python runs none of the body at
call time; the call merely captures the arguments. -/
structure TransactionsGenerator where
  startDate : Option String
  deriving DecidableEq, Repr

/-- Calling `shopify_partners_transactions`: constructs the suspended
generator; no validation runs, no error can be raised, and zero transport
calls are made (the second component counts them). -/
def shopifyPartnersTransactionsCall (startDate : Option String) :
    TransactionsGenerator × Nat :=
  (⟨startDate⟩, 0)

/-- Advancing the suspended generator for the first time runs the body from
the top. -/
def TransactionsGenerator.firstAdvance (g : TransactionsGenerator)
    (isoparseOk : String → Bool) : RunOutcome :=
  shopifyPartnersTransactionsRun g.startDate isoparseOk

/-! ## The date windower (`_start_days_till_now`, lines 124-149) -/

/-- Python `str.split(sep)` for a one-character separator: split at every
occurrence, keeping empty parts (so the result is never empty). -/
def splitOnChar (sep : Char) : List Char → List (List Char)
  | [] => [[]]
  | c :: rest =>
    if c = sep then [] :: splitOnChar sep rest
    else
      match splitOnChar sep rest with
      | g :: gs => (c :: g) :: gs
      | [] => [[c]]

/-- Digit accumulator for `pyInt`: `none` until at least one digit is seen,
`none` forever after a non-digit. -/
def parseDigits : List Char → Option Nat → Option Nat
  | [], acc => acc
  | c :: rest, acc =>
    if c.isDigit then parseDigits rest (some ((acc.getD 0) * 10 + (c.toNat - 48)))
    else none

/-- Python `int(s)` on the sign-free inputs that occur here (the pieces of a
`-`-split string contain no `-`): the decimal value of a non-empty digit
string, failure (`ValueError`) otherwise. -/
def pyInt (s : List Char) : Option Nat := parseDigits s none

/-- Python `str.lstrip()`: drop leading whitespace. -/
def pyLstrip (s : List Char) : List Char :=
  s.dropWhile (fun c => c.isWhitespace)

/-- Embedding of advancing the `_start_days_till_now` generator, in source
order: split the input on `-`; `int(parts[0])`, `int(parts[1].lstrip())`,
`int(parts[2].lstrip())` (IndexError on a missing part, ValueError on a
non-numeral); then evaluate `date(year, month, day)` — but the module never
imports `date` (its datetime import brings only `datetime`, `timedelta`,
`timezone`), so the name lookup raises `NameError` before anything is
yielded.  (`DAILY` on line 144 is equally unbound: the module imports
`WEEKLY`.)  Returns (day strings yielded, error raised). -/
def startDaysTillNowRun (startDate : String) : List String × Option PyErr :=
  match (splitOnChar '-' (strL startDate)).get? 0 with
  | none => ([], some .indexError)
  | some p0 =>
    match pyInt p0 with
    | none => ([], some (.valueError "invalid literal for int with base 10"))
    | some _ =>
      match (splitOnChar '-' (strL startDate)).get? 1 with
      | none => ([], some .indexError)
      | some p1 =>
        match pyInt (pyLstrip p1) with
        | none => ([], some (.valueError "invalid literal for int with base 10"))
        | some _ =>
          match (splitOnChar '-' (strL startDate)).get? 2 with
          | none => ([], some .indexError)
          | some p2 =>
            match pyInt (pyLstrip p2) with
            | none => ([], some (.valueError "invalid literal for int with base 10"))
            | some _ => ([], some (.nameError "date"))

/-! ## Day-string characters and response-shape checks -/

/-- Characters that can occur in a `YYYY-MM-DD` day string (the output
alphabet of `strftime` with format `%Y-%m-%d`): digits and the hyphen. -/
def isDayChar (c : Char) : Bool := c.isDigit || c == '-'

/-- Does a parsed response body lack the expected nested
`data.transactions.edges` path?  (Checks exactly the subscripts taken on
lines 106-108.) -/
def lacksEdgesPath (j : Json) : Bool :=
  match j.getItem "data" with
  | .error _ => true
  | .ok dataVal =>
    match dataVal.getItem "transactions" with
    | .error _ => true
    | .ok transactionsVal =>
      match transactionsVal.getItem "edges" with
      | .error _ => true
      | .ok _ => false

/-! ## Concrete fixtures used in the mocked-transport scenarios -/

/-- The raw edge `\x7b"id": "tx1"\x7d` of the spec's mocked response. -/
def txEdge1 : Json := .obj [("id", .str "tx1")]

/-- The raw edge `\x7b"id": "tx2"\x7d` of the spec's mocked response. -/
def txEdge2 : Json := .obj [("id", .str "tx2")]

/-- A response body `\x7b"data": \x7b"transactions": \x7b"edges": [...]\x7d\x7d\x7d`
wrapping the given edges. -/
def transactionsBody (edges : List Json) : Json :=
  .obj [("data", .obj [("transactions", .obj [("edges", .arr edges)])])]

/-- A mock `CLEANERS` registry in which the transactions normalizer is
registered. -/
def demoCleaners : String → Option Cleaner :=
  fun _ => some cleanShopifyPartnersTransactions

/-! ## Decomposition of the query template around its placeholders -/

/-- The template text strictly before `:fromdate:`. -/
def qA : List Char := strL "\x7b transactions(createdAtMin: \""

/-- The template text strictly between `:fromdate:` and `:todate:`. -/
def qB : List Char := strL "\", createdAtMax: \""

/-- The template text strictly after `:todate:`. -/
def qC : List Char :=
  strL "\", types: [SALE]) \x7b edges \x7b node \x7b id createdAt \x7d \x7d \x7d \x7d"

/-! ## Lemmas about the string scanner and `replaceAll` -/

theorem isPrefixL_append_self (pat t : List Char) :
    isPrefixL pat (pat ++ t) = true := by
  induction pat with
  | nil => rfl
  | cons p ps ih => simp [isPrefixL, ih]

theorem eq_append_drop_of_isPrefixL (pat : List Char) :
    ∀ s : List Char, isPrefixL pat s = true → s = pat ++ s.drop pat.length := by
  induction pat with
  | nil => intro s _; rfl
  | cons p ps ih =>
    intro s hs
    cases s with
    | nil => simp [isPrefixL] at hs
    | cons c cs =>
      simp only [isPrefixL, Bool.and_eq_true, beq_iff_eq] at hs
      obtain ⟨rfl, h2⟩ := hs
      simpa using ih cs h2

theorem splitFirst_some_decomp (pat : List Char) :
    ∀ (s a b : List Char), splitFirst pat s = some (a, b) → s = a ++ pat ++ b := by
  intro s
  induction s with
  | nil => intro a b h; simp [splitFirst] at h
  | cons c rest ih =>
    intro a b h
    by_cases hp : isPrefixL pat (c :: rest) = true
    · simp only [splitFirst, hp, if_true, Option.some.injEq, Prod.mk.injEq] at h
      obtain ⟨rfl, rfl⟩ := h
      simpa using eq_append_drop_of_isPrefixL pat (c :: rest) hp
    · simp only [splitFirst, hp, if_false, Bool.not_eq_true] at h
      rcases hsp : splitFirst pat rest with _ | ⟨a', b'⟩ <;> rw [hsp] at h
      · exact absurd h (by simp)
      · simp only [Option.some.injEq, Prod.mk.injEq] at h
        obtain ⟨rfl, rfl⟩ := h
        simpa using ih a' b hsp

theorem splitFirst_some_length (pat : List Char) (hpat : 0 < pat.length) :
    ∀ (s a b : List Char), splitFirst pat s = some (a, b) → b.length < s.length := by
  intro s
  induction s with
  | nil => intro a b h; simp [splitFirst] at h
  | cons c rest ih =>
    intro a b h
    by_cases hp : isPrefixL pat (c :: rest) = true
    · simp only [splitFirst, hp, if_true, Option.some.injEq, Prod.mk.injEq] at h
      obtain ⟨rfl, rfl⟩ := h
      simp only [List.length_drop, List.length_cons]
      omega
    · simp only [splitFirst, hp, if_false, Bool.not_eq_true] at h
      rcases hsp : splitFirst pat rest with _ | ⟨a', b'⟩ <;> rw [hsp] at h
      · exact absurd h (by simp)
      · simp only [Option.some.injEq, Prod.mk.injEq] at h
        obtain ⟨rfl, rfl⟩ := h
        have := ih a' b hsp
        simp only [List.length_cons]
        omega

theorem splitFirst_isSome_of_decomp (pat : List Char) (hpat : pat ≠ []) :
    ∀ u v : List Char, (splitFirst pat (u ++ pat ++ v)).isSome = true := by
  intro u
  induction u with
  | nil =>
    intro v
    obtain ⟨p, pt, rfl⟩ : ∃ p pt, pat = p :: pt := by
      cases pat with
      | nil => exact absurd rfl hpat
      | cons p pt => exact ⟨p, pt, rfl⟩
    have hp : isPrefixL (p :: pt) ((p :: pt) ++ v) = true := isPrefixL_append_self _ _
    simp only [List.nil_append, List.cons_append] at hp ⊢
    simp [splitFirst, hp]
  | cons c u' ih =>
    intro v
    have ih' := ih v
    rw [List.append_assoc] at ih'
    simp only [List.cons_append, List.append_assoc]
    by_cases hp : isPrefixL pat (c :: (u' ++ (pat ++ v))) = true
    · simp [splitFirst, hp]
    · simp only [splitFirst, List.append_eq, hp, Bool.false_eq_true, if_false]
      rcases hsp : splitFirst pat (u' ++ (pat ++ v)) with _ | ⟨a', b'⟩
      · rw [hsp] at ih'; simp at ih'
      · simp

theorem replaceAllF_of_none (pat r s : List Char) (h : splitFirst pat s = none) :
    ∀ fuel : Nat, replaceAllF fuel pat r s = s := by
  intro fuel
  cases fuel with
  | zero => rfl
  | succ n => simp [replaceAllF, h]

theorem replaceAll_of_none (pat r s : List Char) (h : splitFirst pat s = none) :
    replaceAll pat r s = s :=
  replaceAllF_of_none pat r s h _

theorem replaceAll_split (pat r s a b : List Char) (_hpat : 0 < pat.length)
    (hs : splitFirst pat s = some (a, b)) (hb : splitFirst pat b = none) :
    replaceAll pat r s = a ++ r ++ b := by
  cases s with
  | nil => simp [splitFirst] at hs
  | cons c rest =>
    show replaceAllF (rest.length + 1) pat r (c :: rest) = a ++ r ++ b
    simp [replaceAllF, hs, replaceAllF_of_none pat r b hb]

theorem replaceAll_self (pat r : List Char) (hpat : 0 < pat.length) :
    replaceAll pat r pat = r := by
  obtain ⟨p, pt, rfl⟩ : ∃ p pt, pat = p :: pt := by
    cases pat with
    | nil => simp at hpat
    | cons p pt => exact ⟨p, pt, rfl⟩
  have hp : isPrefixL (p :: pt) (p :: pt) = true := by
    simpa using isPrefixL_append_self (p :: pt) []
  have hsplit : splitFirst (p :: pt) (p :: pt) = some ([], []) := by
    simp [splitFirst, hp, List.drop_length]
  have := replaceAll_split (p :: pt) r (p :: pt) [] [] (by simp) hsplit rfl
  simpa using this

/-! ## Lemmas about adjacent character pairs -/

/-- Does the last character of `u` equal `c1` while the first of `v` equals
`c2`?  (The pair a concatenation adds at the seam.) -/
def boundaryPair (c1 c2 : Char) (u v : List Char) : Bool :=
  decide (u.getLast? = some c1) && decide (v.head? = some c2)

theorem hasPair_append (c1 c2 : Char) :
    ∀ u v : List Char, hasPair c1 c2 (u ++ v) =
      (hasPair c1 c2 u || boundaryPair c1 c2 u v || hasPair c1 c2 v) := by
  intro u
  induction u with
  | nil => intro v; simp [hasPair, boundaryPair]
  | cons a u' ih =>
    intro v
    cases u' with
    | nil =>
      cases v with
      | nil => simp [hasPair, boundaryPair]
      | cons b t =>
        have hbd : ∀ x y : Char, (x == y) = decide (x = y) := fun _ _ => rfl
        simp [hasPair, boundaryPair, hbd]
    | cons a' u'' =>
      have hstep : hasPair c1 c2 ((a :: a' :: u'') ++ v) =
          ((a == c1 && a' == c2) || hasPair c1 c2 ((a' :: u'') ++ v)) := by
        simp [hasPair]
      rw [hstep, ih v]
      have hgl : (a :: a' :: u'').getLast? = (a' :: u'').getLast? := by
        simp [List.getLast?]
      simp only [hasPair, boundaryPair, hgl, Bool.or_assoc]

theorem hasPair_false_of_all_ne (c1 c2 : Char) :
    ∀ l : List Char, (∀ c ∈ l, ¬ c = c2) → hasPair c1 c2 l = false := by
  intro l
  induction l with
  | nil => intro _; rfl
  | cons a l' ih =>
    intro h
    cases l' with
    | nil => rfl
    | cons b t =>
      have hb : ¬ b = c2 := h b (by simp)
      have ht := ih (fun c hc => h c (List.mem_cons_of_mem a hc))
      simp only [hasPair, ht, Bool.or_false, Bool.and_eq_false_iff]
      right
      simpa using hb

theorem hasPair_of_decomp (c1 c2 : Char) (p' s u v : List Char)
    (hs : s = u ++ (c1 :: c2 :: p') ++ v) : hasPair c1 c2 s = true := by
  subst hs
  have hmid : hasPair c1 c2 ((c1 :: c2 :: p') ++ v) = true := by
    cases p' <;> simp [hasPair]
  rw [List.append_assoc, hasPair_append, hmid]
  simp

theorem boundaryPair_false_left (c1 c2 : Char) (u v : List Char)
    (h : ¬ u.getLast? = some c1) : boundaryPair c1 c2 u v = false := by
  simp [boundaryPair, h]

theorem boundaryPair_false_right (c1 c2 : Char) (u v : List Char)
    (h : ¬ v.head? = some c2) : boundaryPair c1 c2 u v = false := by
  simp [boundaryPair, h]

theorem hasPair_append_false (c1 c2 : Char) (u v : List Char)
    (hu : hasPair c1 c2 u = false) (hv : hasPair c1 c2 v = false)
    (hb : boundaryPair c1 c2 u v = false) :
    hasPair c1 c2 (u ++ v) = false := by
  rw [hasPair_append, hu, hv, hb]
  rfl

theorem getLast?_ne_of_all (l : List Char) (x : Char) (h : ∀ c ∈ l, ¬ c = x) :
    ¬ l.getLast? = some x :=
  fun hx => h x (List.mem_of_mem_getLast? hx) rfl

theorem head?_ne_of_all (l : List Char) (x : Char) (h : ∀ c ∈ l, ¬ c = x) :
    ¬ l.head? = some x :=
  fun hx => h x (List.mem_of_mem_head? hx) rfl

/-! ## Scanning past a clear left part -/

theorem splitFirst_append_of_left_clear (c1 c2 : Char) (pr : List Char) :
    ∀ (X Y : List Char), hasPair c1 c2 X = false →
      boundaryPair c1 c2 X Y = false →
      splitFirst (c1 :: c2 :: pr) (X ++ Y) =
        (splitFirst (c1 :: c2 :: pr) Y).map (fun q => (X ++ q.1, q.2)) := by
  intro X
  induction X with
  | nil =>
    intro Y _ _
    simp only [List.nil_append]
    rcases h : splitFirst (c1 :: c2 :: pr) Y with _ | ⟨a, b⟩ <;> simp
  | cons c X' ih =>
    intro Y hX hb
    have hhead : isPrefixL (c1 :: c2 :: pr) (c :: (X' ++ Y)) = false := by
      by_contra hcon
      rw [Bool.not_eq_false] at hcon
      simp only [isPrefixL, Bool.and_eq_true, beq_iff_eq] at hcon
      obtain ⟨hc, hrest⟩ := hcon
      cases X' with
      | nil =>
        cases Y with
        | nil => simp [isPrefixL] at hrest
        | cons y yt =>
          simp only [List.nil_append, isPrefixL, Bool.and_eq_true, beq_iff_eq] at hrest
          have : boundaryPair c1 c2 [c] (y :: yt) = true := by
            simp [boundaryPair, hc, hrest.1]
          rw [hb] at this
          exact absurd this (by simp)
      | cons x' X'' =>
        simp only [List.cons_append, isPrefixL, Bool.and_eq_true, beq_iff_eq] at hrest
        have : hasPair c1 c2 (c :: x' :: X'') = true := by
          simp [hasPair, hc, hrest.1]
        rw [hX] at this
        exact absurd this (by simp)
    have hX' : hasPair c1 c2 X' = false := by
      cases X' with
      | nil => rfl
      | cons x' X'' =>
        by_contra hcon
        rw [Bool.not_eq_false] at hcon
        have : hasPair c1 c2 (c :: x' :: X'') = true := by
          simp [hasPair, hcon]
        rw [hX] at this
        exact absurd this (by simp)
    have hb' : boundaryPair c1 c2 X' Y = false := by
      cases X' with
      | nil => simp [boundaryPair]
      | cons x' X'' =>
        have hgl : (c :: x' :: X'').getLast? = (x' :: X'').getLast? := by
          simp [List.getLast?]
        simpa [boundaryPair, hgl] using hb
    have hrec := ih Y hX' hb'
    simp only [List.cons_append, splitFirst, List.append_eq, hhead,
      Bool.false_eq_true, if_false]
    rw [hrec]
    rcases h : splitFirst (c1 :: c2 :: pr) Y with _ | ⟨a, b⟩ <;> simp

/-! ## Supporting lemmas for the request-builder claim -/

theorem head?_append_ne (l m : List Char) (x : Char)
    (hl : ∀ c ∈ l, ¬ c = x) (hm : ¬ m.head? = some x) :
    ¬ (l ++ m).head? = some x := by
  cases l with
  | nil => simpa using hm
  | cons c t =>
    intro h
    simp only [List.cons_append, List.head?_cons, Option.some.injEq] at h
    exact hl c (by simp) h

theorem day_chars_ne (d : String) (hd : (strL d).all isDayChar = true)
    (x : Char) (hx : isDayChar x = false) : ∀ c ∈ strL d, ¬ c = x := by
  intro c hc he
  rw [List.all_eq_true] at hd
  have hdc := hd c hc
  rw [he, hx] at hdc
  exact absurd hdc (by simp)

theorem containsSub_false_of_no_pair (c1 c2 : Char) (pr s : List Char)
    (h : hasPair c1 c2 s = false) : containsSub (c1 :: c2 :: pr) s = false := by
  by_contra hcon
  simp only [Bool.not_eq_false, containsSub, Option.isSome_iff_exists] at hcon
  obtain ⟨⟨a, b⟩, hab⟩ := hcon
  have hdec := splitFirst_some_decomp (c1 :: c2 :: pr) s a b hab
  have htrue := hasPair_of_decomp c1 c2 pr s a b hdec
  rw [h] at htrue
  exact absurd htrue (by simp)

theorem substituteDates_template (d : String)
    (hd : (strL d).all isDayChar = true) :
    substituteDates transactionsQueryTemplate d =
      qA ++ (strL d ++ strL "T00:00:00.000000Z") ++ qB ++
        (strL d ++ strL "T23:59:59.999999Z") ++ qC := by
  have hne_colon := day_chars_ne d hd ':' (by decide)
  have hne_t := day_chars_ne d hd 't' (by decide)
  have h1 : replaceAll (strL ":fromdate:") (strL d ++ strL "T00:00:00.000000Z")
      transactionsQueryTemplate
      = qA ++ (strL d ++ strL "T00:00:00.000000Z")
          ++ (qB ++ strL ":todate:" ++ qC) :=
    replaceAll_split _ _ _ _ _ (by decide) (by decide) (by decide)
  have hX : hasPair ':' 't'
      (qA ++ ((strL d ++ strL "T00:00:00.000000Z") ++ qB)) = false := by
    apply hasPair_append_false
    · decide
    · apply hasPair_append_false
      · apply hasPair_append_false
        · exact hasPair_false_of_all_ne ':' 't' (strL d) hne_t
        · decide
        · exact boundaryPair_false_left ':' 't' _ _
            (getLast?_ne_of_all (strL d) ':' hne_colon)
      · decide
      · exact boundaryPair_false_right ':' 't' _ _ (by decide)
    · exact boundaryPair_false_left ':' 't' _ _ (by decide)
  have hbXY : boundaryPair ':' 't'
      (qA ++ ((strL d ++ strL "T00:00:00.000000Z") ++ qB))
      (strL ":todate:" ++ qC) = false :=
    boundaryPair_false_right ':' 't' _ _ (by decide)
  have hskip := splitFirst_append_of_left_clear ':' 't' (strL "odate:")
      (qA ++ ((strL d ++ strL "T00:00:00.000000Z") ++ qB))
      (strL ":todate:" ++ qC) hX hbXY
  have hYsplit : splitFirst (':' :: 't' :: strL "odate:")
      (strL ":todate:" ++ qC) = some ([], qC) := by decide
  rw [hYsplit] at hskip
  simp only [Option.map_some', List.append_nil] at hskip
  have h2 : replaceAll (strL ":todate:") (strL d ++ strL "T23:59:59.999999Z")
      ((qA ++ ((strL d ++ strL "T00:00:00.000000Z") ++ qB))
        ++ (strL ":todate:" ++ qC))
      = (qA ++ ((strL d ++ strL "T00:00:00.000000Z") ++ qB))
          ++ (strL d ++ strL "T23:59:59.999999Z") ++ qC :=
    replaceAll_split _ _ _ _ _ (by decide) hskip (by decide)
  simp only [substituteDates]
  rw [h1]
  have hassoc : qA ++ (strL d ++ strL "T00:00:00.000000Z")
        ++ (qB ++ strL ":todate:" ++ qC)
      = (qA ++ ((strL d ++ strL "T00:00:00.000000Z") ++ qB))
          ++ (strL ":todate:" ++ qC) := by
    simp [List.append_assoc]
  rw [hassoc, h2]
  simp [List.append_assoc]

/-! ## Behaviour of the day loop around a failing day -/

theorem extractionLoop_append_error (q0 : List Char)
    (cleanersGet : String → Option Cleaner) (transport : List Char → Response)
    (dbad : String) (after : List String) (e : PyErr) :
    ∀ before : List String,
      (∀ d ∈ before,
        ∃ recs, processDay (some q0) cleanersGet transport d = Except.ok recs) →
      processDay (some q0) cleanersGet transport dbad = Except.error e →
      ∃ recsBefore,
        extractionLoop (some q0) cleanersGet transport (before ++ dbad :: after)
          = (recsBefore, some e, before.length + 1) ∧
        extractionLoop (some q0) cleanersGet transport before
          = (recsBefore, none, before.length) := by
  intro before
  induction before with
  | nil =>
    intro _ hbad
    refine ⟨[], ?_, rfl⟩
    simp [extractionLoop, hbad, processDayCalls]
  | cons d ds ih =>
    intro hok hbad
    obtain ⟨recs, hrecs⟩ := hok d (by simp)
    obtain ⟨recsB, h1, h2⟩ :=
      ih (fun x hx => hok x (List.mem_cons_of_mem d hx)) hbad
    refine ⟨recs ++ recsB, ?_, ?_⟩
    · simp only [List.cons_append, extractionLoop, List.append_eq, hrecs, h1,
        processDayCalls, List.length_cons]
      have harith : 1 + (ds.length + 1) = ds.length + 1 + 1 := by omega
      rw [harith]
    · simp only [extractionLoop, hrecs, h2, processDayCalls, List.length_cons]
      have harith : 1 + ds.length = ds.length + 1 := by omega
      rw [harith]

/-! ## Claim theorems -/

/-- C1: for a day the loop processes with a well-shaped response, each raw
edge under `data.transactions.edges` produces exactly one yielded record,
in edge order, obtained by applying the registered normalizer to
`(day, edge)`; and in the spec's mocked scenario — a response with edges
`tx1`, `tx2` for day `2022-03-01` — the loop yields exactly two
NormalizedTransaction values, both tagged with day `2022-03-01`. -/
theorem loop_yields_one_record_per_edge
    (q0 : List Char) (cleanersGet : String → Option Cleaner)
    (transport : List Char → Response) (dateDay : String) (f : Cleaner)
    (edges : List Json)
    (hf : cleanersGet "clean_shopify_partners_transactions" = some f)
    (htr : transport (substituteDates q0 dateDay)
      = ⟨200, Except.ok (transactionsBody edges)⟩) :
    processDay (some q0) cleanersGet transport dateDay
      = Except.ok (edges.map (f dateDay)) ∧
    extractionLoop (some transactionsQueryTemplate) demoCleaners
        (fun _ => ⟨200, Except.ok (transactionsBody [txEdge1, txEdge2])⟩)
        ["2022-03-01"]
      = ([⟨"2022-03-01", txEdge1⟩, ⟨"2022-03-01", txEdge2⟩], none, 1) := by
  constructor
  · have hpath1 : ∀ es : List Json, (transactionsBody es).getItem "data"
        = Except.ok (Json.obj [("transactions", Json.obj [("edges", Json.arr es)])]) :=
      fun _ => rfl
    have hpath2 : ∀ es : List Json,
        (Json.obj [("transactions", Json.obj [("edges", Json.arr es)])]).getItem
            "transactions"
        = Except.ok (Json.obj [("edges", Json.arr es)]) := fun _ => rfl
    have hpath3 : ∀ es : List Json,
        (Json.obj [("edges", Json.arr es)]).getItem "edges"
        = Except.ok (Json.arr es) := fun _ => rfl
    simp only [processDay, htr]
    rw [if_neg (by decide)]
    simp [cleanerLookup, hf, hpath1, hpath2, hpath3, runCleaner]
  · rfl

theorem loop_yields_one_record_per_edge_witness :
    processDay (some (strL "x :fromdate: :todate: y")) demoCleaners
        (fun _ => ⟨200, Except.ok (transactionsBody [txEdge1])⟩) "2022-03-01"
      = Except.ok ([txEdge1].map (cleanShopifyPartnersTransactions "2022-03-01")) :=
  (loop_yields_one_record_per_edge (strL "x :fromdate: :todate: y") demoCleaners
    (fun _ => ⟨200, Except.ok (transactionsBody [txEdge1])⟩) "2022-03-01"
    cleanShopifyPartnersTransactions [txEdge1] rfl rfl).1

/-- C4: for every day string `d` (a `%Y-%m-%d`-formatted string: digits and
hyphens), the substituted request body contains `d + "T00:00:00.000000Z"`
(in place of the `:fromdate:` placeholder) and `d + "T23:59:59.999999Z"`
(in place of the `:todate:` placeholder), and neither placeholder token
remains anywhere in the body. -/
theorem request_builder_substitutes_day_bounds (d : String)
    (hd : (strL d).all isDayChar = true) :
    containsSub (strL d ++ strL "T00:00:00.000000Z")
        (substituteDates transactionsQueryTemplate d) = true ∧
    containsSub (strL d ++ strL "T23:59:59.999999Z")
        (substituteDates transactionsQueryTemplate d) = true ∧
    containsSub (strL ":fromdate:")
        (substituteDates transactionsQueryTemplate d) = false ∧
    containsSub (strL ":todate:")
        (substituteDates transactionsQueryTemplate d) = false := by
  have hne_colon := day_chars_ne d hd ':' (by decide)
  have hne_t := day_chars_ne d hd 't' (by decide)
  have hne_f := day_chars_ne d hd 'f' (by decide)
  rw [substituteDates_template d hd]
  refine ⟨?_, ?_, ?_, ?_⟩
  · have hne1 : strL d ++ strL "T00:00:00.000000Z" ≠ [] :=
      List.append_ne_nil_of_right_ne_nil _ (by decide)
    have hsh : qA ++ (strL d ++ strL "T00:00:00.000000Z") ++ qB ++
        (strL d ++ strL "T23:59:59.999999Z") ++ qC
        = qA ++ (strL d ++ strL "T00:00:00.000000Z") ++
          (qB ++ ((strL d ++ strL "T23:59:59.999999Z") ++ qC)) := by
      simp [List.append_assoc]
    rw [hsh]
    exact splitFirst_isSome_of_decomp _ hne1 qA _
  · have hne2 : strL d ++ strL "T23:59:59.999999Z" ≠ [] :=
      List.append_ne_nil_of_right_ne_nil _ (by decide)
    exact splitFirst_isSome_of_decomp _ hne2
      (qA ++ (strL d ++ strL "T00:00:00.000000Z") ++ qB) qC
  · have hfull : hasPair ':' 'f' (qA ++ (strL d ++ strL "T00:00:00.000000Z")
        ++ qB ++ (strL d ++ strL "T23:59:59.999999Z") ++ qC) = false := by
      apply hasPair_append_false
      · apply hasPair_append_false
        · apply hasPair_append_false
          · apply hasPair_append_false
            · decide
            · apply hasPair_append_false
              · exact hasPair_false_of_all_ne ':' 'f' (strL d) hne_f
              · decide
              · exact boundaryPair_false_left ':' 'f' _ _
                  (getLast?_ne_of_all (strL d) ':' hne_colon)
            · exact boundaryPair_false_left ':' 'f' _ _ (by decide)
          · decide
          · exact boundaryPair_false_right ':' 'f' _ _ (by decide)
        · apply hasPair_append_false
          · exact hasPair_false_of_all_ne ':' 'f' (strL d) hne_f
          · decide
          · exact boundaryPair_false_left ':' 'f' _ _
              (getLast?_ne_of_all (strL d) ':' hne_colon)
        · exact boundaryPair_false_right ':' 'f' _ _
            (head?_append_ne (strL d) _ 'f' hne_f (by decide))
      · decide
      · exact boundaryPair_false_right ':' 'f' _ _ (by decide)
    rw [show strL ":fromdate:" = ':' :: 'f' :: strL "romdate:" from rfl]
    exact containsSub_false_of_no_pair ':' 'f' (strL "romdate:") _ hfull
  · have hfull : hasPair ':' 't' (qA ++ (strL d ++ strL "T00:00:00.000000Z")
        ++ qB ++ (strL d ++ strL "T23:59:59.999999Z") ++ qC) = false := by
      apply hasPair_append_false
      · apply hasPair_append_false
        · apply hasPair_append_false
          · apply hasPair_append_false
            · decide
            · apply hasPair_append_false
              · exact hasPair_false_of_all_ne ':' 't' (strL d) hne_t
              · decide
              · exact boundaryPair_false_left ':' 't' _ _
                  (getLast?_ne_of_all (strL d) ':' hne_colon)
            · exact boundaryPair_false_left ':' 't' _ _ (by decide)
          · decide
          · exact boundaryPair_false_right ':' 't' _ _ (by decide)
        · apply hasPair_append_false
          · exact hasPair_false_of_all_ne ':' 't' (strL d) hne_t
          · decide
          · exact boundaryPair_false_left ':' 't' _ _
              (getLast?_ne_of_all (strL d) ':' hne_colon)
        · exact boundaryPair_false_right ':' 't' _ _
            (head?_append_ne (strL d) _ 't' hne_t (by decide))
      · decide
      · exact boundaryPair_false_right ':' 't' _ _ (by decide)
    rw [show strL ":todate:" = ':' :: 't' :: strL "odate:" from rfl]
    exact containsSub_false_of_no_pair ':' 't' (strL "odate:") _ hfull

theorem request_builder_substitutes_day_bounds_witness :
    (strL "2022-03-01").all isDayChar = true ∧
    (containsSub (strL "2022-03-01" ++ strL "T00:00:00.000000Z")
        (substituteDates transactionsQueryTemplate "2022-03-01") = true ∧
     containsSub (strL "2022-03-01" ++ strL "T23:59:59.999999Z")
        (substituteDates transactionsQueryTemplate "2022-03-01") = true ∧
     containsSub (strL ":fromdate:")
        (substituteDates transactionsQueryTemplate "2022-03-01") = false ∧
     containsSub (strL ":todate:")
        (substituteDates transactionsQueryTemplate "2022-03-01") = false) :=
  ⟨by decide, request_builder_substitutes_day_bounds "2022-03-01" (by decide)⟩

/-- C5: when the transport answers some day with a 4xx/5xx status, the loop
raises `HTTPStatusError` for that run: the failing day contributes exactly
one transport call (no retry), that day and all later days yield zero
records, and everything yielded for strictly earlier days stays exactly as
produced (the loop run on the earlier days alone). -/
theorem http_error_aborts_loop_without_retry
    (q0 : List Char) (cleanersGet : String → Option Cleaner)
    (transport : List Char → Response) (before after : List String)
    (dbad : String)
    (hok : ∀ d ∈ before,
      ∃ recs, processDay (some q0) cleanersGet transport d = Except.ok recs)
    (hbad : 400 ≤ (transport (substituteDates q0 dbad)).status ∧
            (transport (substituteDates q0 dbad)).status < 600) :
    ∃ recsBefore,
      extractionLoop (some q0) cleanersGet transport (before ++ dbad :: after)
        = (recsBefore,
           some (PyErr.httpStatusError
             (transport (substituteDates q0 dbad)).status),
           before.length + 1) ∧
      extractionLoop (some q0) cleanersGet transport before
        = (recsBefore, none, before.length) := by
  have hpd : processDay (some q0) cleanersGet transport dbad
      = Except.error (PyErr.httpStatusError
          (transport (substituteDates q0 dbad)).status) := by
    simp only [processDay]
    rw [if_pos hbad]
  exact extractionLoop_append_error q0 cleanersGet transport dbad after _
    before hok hpd

theorem http_error_aborts_loop_without_retry_witness :
    ∃ recsBefore,
      extractionLoop (some (strL "query")) (fun _ => none)
          (fun _ => ⟨402, Except.error ()⟩) ["2022-03-01"]
        = (recsBefore, some (PyErr.httpStatusError 402), 1) ∧
      extractionLoop (some (strL "query")) (fun _ => none)
          (fun _ => ⟨402, Except.error ()⟩) []
        = (recsBefore, none, 0) :=
  http_error_aborts_loop_without_retry (strL "query") (fun _ => none)
    (fun _ => ⟨402, Except.error ()⟩) [] [] "2022-03-01"
    (by simp) (by decide)

/-- C8: when some day's response (with a non-error status) has a body that
is not parseable JSON, or parses to a value lacking the nested
`data.transactions.edges` path, the run fails with a fatal error that
propagates out of the loop — the failing day and all later days emit
nothing, while earlier days' records stand. -/
theorem malformed_response_aborts_loop
    (q0 : List Char) (cleanersGet : String → Option Cleaner)
    (transport : List Char → Response) (before after : List String)
    (dbad : String)
    (hok : ∀ d ∈ before,
      ∃ recs, processDay (some q0) cleanersGet transport d = Except.ok recs)
    (hst : ¬(400 ≤ (transport (substituteDates q0 dbad)).status ∧
             (transport (substituteDates q0 dbad)).status < 600))
    (hbad : (transport (substituteDates q0 dbad)).jsonBody = Except.error () ∨
            ∃ j, (transport (substituteDates q0 dbad)).jsonBody = Except.ok j ∧
                 lacksEdgesPath j = true) :
    ∃ e recsBefore,
      extractionLoop (some q0) cleanersGet transport (before ++ dbad :: after)
        = (recsBefore, some e, before.length + 1) ∧
      extractionLoop (some q0) cleanersGet transport before
        = (recsBefore, none, before.length) := by
  have hpd : ∃ e, processDay (some q0) cleanersGet transport dbad
      = Except.error e := by
    rcases hbad with hparse | ⟨j, hj, hl⟩
    · refine ⟨PyErr.jsonDecodeError, ?_⟩
      simp only [processDay]
      rw [if_neg hst, hparse]
    · unfold lacksEdgesPath at hl
      rcases h1 : j.getItem "data" with e1 | jd
      · refine ⟨e1, ?_⟩
        simp only [processDay]
        rw [if_neg hst, hj]
        simp [h1]
      · rcases h2 : jd.getItem "transactions" with e2 | jt
        · refine ⟨e2, ?_⟩
          simp only [processDay]
          rw [if_neg hst, hj]
          simp [h1, h2]
        · rcases h3 : jt.getItem "edges" with e3 | je
          · refine ⟨e3, ?_⟩
            simp only [processDay]
            rw [if_neg hst, hj]
            simp [h1, h2, h3]
          · rw [h1] at hl
            simp only [] at hl
            rw [h2] at hl
            simp only [] at hl
            rw [h3] at hl
            simp at hl
  obtain ⟨e, hpd⟩ := hpd
  exact ⟨e, extractionLoop_append_error q0 cleanersGet transport dbad after e
    before hok hpd⟩

theorem malformed_response_aborts_loop_witness :
    ∃ e recsBefore,
      extractionLoop (some (strL "query")) (fun _ => none)
          (fun _ => ⟨200, Except.error ()⟩) ["2022-03-01"]
        = (recsBefore, some e, 1) ∧
      extractionLoop (some (strL "query")) (fun _ => none)
          (fun _ => ⟨200, Except.error ()⟩) []
        = (recsBefore, none, 0) :=
  malformed_response_aborts_loop (strL "query") (fun _ => none)
    (fun _ => ⟨200, Except.error ()⟩) [] [] "2022-03-01"
    (by simp) (by decide) (Or.inl rfl)

/-- C2: the claim says `_start_days_till_now` yields `(today − start).days + 1`
strictly increasing `YYYY-MM-DD` strings for every valid start date.  The
code cannot: its body evaluates the unbound names `date` and `DAILY` (the
module imports neither), so for every input the generator yields no day
string at all and raises; on the well-formed input `"2022-03-01"` it raises
`NameError` for `date`. -/
theorem date_windower_yields_no_days :
    (∀ startDate : String, (startDaysTillNowRun startDate).1 = [] ∧
      (startDaysTillNowRun startDate).2.isSome = true) ∧
    startDaysTillNowRun "2022-03-01" = ([], some (PyErr.nameError "date")) := by
  constructor
  · intro s
    unfold startDaysTillNowRun
    refine ⟨?_, ?_⟩ <;> (repeat' split) <;> rfl
  · rfl

/-- C3: with `start_date` absent or the empty string, advancing the
generator raises `ValueError` (the configuration error), yields no record,
and performs zero transport calls. -/
theorem missing_start_date_raises_before_transport
    (startDate : Option String) (isoparseOk : String → Bool)
    (h : startDate = none ∨ startDate = some "") :
    shopifyPartnersTransactionsRun startDate isoparseOk =
      ⟨[], some (PyErr.valueError "The parameter start_date is required."), 0⟩ := by
  rcases h with rfl | rfl <;> rfl

theorem missing_start_date_raises_before_transport_witness :
    shopifyPartnersTransactionsRun none (fun _ => true) =
      ⟨[], some (PyErr.valueError "The parameter start_date is required."), 0⟩ :=
  missing_start_date_raises_before_transport none (fun _ => true) (Or.inl rfl)

/-- C9: for every non-empty `start_date` that date parsing accepts,
advancing the generator raises `AttributeError` at the
`self.create_headers()` call (the class only defines `_create_headers`),
with zero records yielded and zero transport calls — no run with a valid
start date ever emits a record or contacts the transport. -/
theorem valid_start_date_hits_missing_create_headers
    (s : String) (isoparseOk : String → Bool) (hne : ¬ s = "")
    (hparse : isoparseOk s = true) :
    shopifyPartnersTransactionsRun (some s) isoparseOk =
      ⟨[], some (PyErr.attributeError "create_headers"), 0⟩ := by
  simp [shopifyPartnersTransactionsRun, hne, hparse]

theorem valid_start_date_hits_missing_create_headers_witness :
    shopifyPartnersTransactionsRun (some "2022-03-01") (fun _ => true) =
      ⟨[], some (PyErr.attributeError "create_headers"), 0⟩ :=
  valid_start_date_hits_missing_create_headers "2022-03-01" (fun _ => true)
    (by decide) rfl

/-- C10: calling `shopify_partners_transactions` only constructs a
suspended generator — no validation, no error, zero transport calls at
call time — and the missing-`start_date` `ValueError` surfaces only when
the returned generator is first advanced. -/
theorem generator_call_is_lazy (startDate : Option String)
    (isoparseOk : String → Bool) :
    shopifyPartnersTransactionsCall startDate = (⟨startDate⟩, 0) ∧
    (shopifyPartnersTransactionsCall startDate).1.firstAdvance isoparseOk =
      shopifyPartnersTransactionsRun startDate isoparseOk ∧
    ((shopifyPartnersTransactionsCall none).1.firstAdvance isoparseOk).error =
      some (PyErr.valueError "The parameter start_date is required.") :=
  ⟨rfl, rfl, rfl⟩

/-- C6: the claim says a missing normalizer-registry entry must fail loudly
even when a day's edges list is empty.  The code's
`CLEANERS.get('clean_shopify_partners_transactions', dict())` falls back
silently: with the entry absent and an empty edges list the run completes
with no error and no records (first conjunct), and with a non-empty edges
list it raises plain `TypeError` (dict not callable) from inside the yield
expression, not a configuration error before work starts (second
conjunct). -/
theorem cleaner_registry_miss_is_silent :
    extractionLoop (some transactionsQueryTemplate) (fun _ => none)
        (fun _ => ⟨200, Except.ok (transactionsBody [])⟩) ["2022-03-01"]
      = ([], none, 1) ∧
    extractionLoop (some transactionsQueryTemplate) (fun _ => none)
        (fun _ => ⟨200, Except.ok (transactionsBody [txEdge1, txEdge2])⟩)
        ["2022-03-01"]
      = ([], some (PyErr.typeError "dict is not callable"), 1) :=
  ⟨rfl, rfl⟩

/-- C7: header composition is pure and idempotent: two successive
`_create_headers` runs with different tokens each produce a fresh header
map carrying their own token (and the untouched Content-Type), the frozen
module template survives both calls unchanged, and re-running with the
first token reproduces the first map exactly. -/
theorem header_composition_pure (t1 t2 : String) :
    ∃ h1 h2 : List (String × String),
      createHeadersStep t1 initialClientState = .ok ⟨HEADERS, some h1⟩ ∧
      createHeadersStep t2 ⟨HEADERS, some h1⟩ = .ok ⟨HEADERS, some h2⟩ ∧
      h1.lookup "X-Shopify-Access-Token" = some t1 ∧
      h2.lookup "X-Shopify-Access-Token" = some t2 ∧
      h1.lookup "Content-Type" = some "application/graphql" ∧
      h2.lookup "Content-Type" = some "application/graphql" ∧
      createHeadersStep t1 ⟨HEADERS, some h2⟩ = .ok ⟨HEADERS, some h1⟩ := by
  have e1 : (("Content-Type" : String) == "X-Shopify-Access-Token") = false := by
    decide
  have e2 : (("X-Shopify-Access-Token" : String) == "X-Shopify-Access-Token")
      = true := by decide
  have e3 : (("X-Shopify-Access-Token" : String) == "Content-Type") = false := by
    decide
  have e4 : (("Content-Type" : String) == "Content-Type") = true := by decide
  have hrep : ∀ t : String,
      (⟨replaceAll (strL ":token:") (strL t) (strL ":token:")⟩ : String) = t := by
    intro t
    rw [replaceAll_self (strL ":token:") (strL t) (by decide)]
    rfl
  have hl : HEADERS.lookup "X-Shopify-Access-Token" = some ":token:" := rfl
  have hset : ∀ v : String, dictSet HEADERS "X-Shopify-Access-Token" v =
      [("Content-Type", "application/graphql"),
       ("X-Shopify-Access-Token", v)] := by
    intro v
    simp [dictSet, HEADERS, e1, e2]
  have hstep : ∀ (t : String) (x : Option (List (String × String))),
      createHeadersStep t ⟨HEADERS, x⟩ =
        .ok ⟨HEADERS, some [("Content-Type", "application/graphql"),
                            ("X-Shopify-Access-Token", t)]⟩ := by
    intro t x
    simp only [createHeadersStep, hl, hrep, hset]
  refine ⟨[("Content-Type", "application/graphql"),
           ("X-Shopify-Access-Token", t1)],
          [("Content-Type", "application/graphql"),
           ("X-Shopify-Access-Token", t2)],
          hstep t1 none, hstep t2 _, ?_, ?_, ?_, ?_, hstep t1 _⟩ <;>
    simp [List.lookup, e2, e3, e4]

theorem header_composition_pure_witness :
    ∃ h1 h2 : List (String × String),
      createHeadersStep "token-one" initialClientState = .ok ⟨HEADERS, some h1⟩ ∧
      createHeadersStep "token-two" ⟨HEADERS, some h1⟩ = .ok ⟨HEADERS, some h2⟩ ∧
      h1.lookup "X-Shopify-Access-Token" = some "token-one" ∧
      h2.lookup "X-Shopify-Access-Token" = some "token-two" ∧
      h1.lookup "Content-Type" = some "application/graphql" ∧
      h2.lookup "Content-Type" = some "application/graphql" ∧
      createHeadersStep "token-one" ⟨HEADERS, some h2⟩ = .ok ⟨HEADERS, some h1⟩ :=
  header_composition_pure "token-one" "token-two"

end TapShopifyPartners
